import Mathlib

/-!
# Download Transport Subsystem — verification development

Shallow embedding of the download transport subsystem of the
`jiraextractor` extension and proofs of its specified properties.

Sources embedded:
* `src/background.js` — the privileged fetch service: `MAX_CHUNK_SIZE`,
  the `downloadFileStream` handler (credential retry, streaming loop that
  splits each `reader.read()` value into chunk messages, cancellation via
  `AbortController`).
* `src/extractor.js` — the requester: `downloadFileViaBackground`
  (streaming client and its `finalize`/`settled` guard),
  `downloadFileViaXHR`, `downloadFileViaBackgroundBlob`, the `downloadFile`
  strategy cascade, and the attachment naming loop of `extractTicket`.

Machine integers do not occur on these paths (all sizes are JS numbers
used as non-negative integers), so byte payloads are `List Nat` and sizes
are `Nat`.  JavaScript strings are modelled as `List Char` (`JStr`) so
that every string operation used by the source is a structural,
kernel-evaluable function.  Asynchronous code is single-threaded
cooperative (as in a JS context): state changes of event handlers can
only be observed at `await` suspension points, which the embedding makes
explicit where it matters (the disconnect flag of the streaming loop).
-/

/-- `const MAX_CHUNK_SIZE = 64 * 1024` (src/background.js line 2). -/
def MAX_CHUNK_SIZE : Nat := 64 * 1024

/-! ## Fetcher side: splitting one `reader.read()` value into chunks

`src/background.js`, `downloadFileStream` streaming loop (lines 140-156):
each read `value` becomes one chunk message if its size is at most
`MAX_CHUNK_SIZE`, and otherwise is sliced at offsets
`0, MAX_CHUNK_SIZE, 2*MAX_CHUNK_SIZE, …`, one chunk message per slice. -/

/-- The inner `for (let offset = 0; offset < len; offset += MAX_CHUNK_SIZE)`
slicing loop: `baseBuffer.slice(offset, offset + MAX_CHUNK_SIZE)` at each
offset.  Written with explicit fuel (one unit per emitted slice; the
fuel `b.length` of `chunkSlices` is always enough because each step
removes `MAX_CHUNK_SIZE ≥ 1` elements) so the definition is structural
and kernel-evaluable. -/
def chunkSlicesFuel : Nat → List Nat → List (List Nat)
  | _, [] => []
  | 0, b => [b]
  | fuel + 1, b => b.take MAX_CHUNK_SIZE :: chunkSlicesFuel fuel (b.drop MAX_CHUNK_SIZE)

/-- All slices of one oversized read buffer, in offset order. -/
def chunkSlices (b : List Nat) : List (List Nat) := chunkSlicesFuel b.length b

/-- Chunk payloads produced for one `reader.read()` value:
`if (baseBuffer.byteLength > MAX_CHUNK_SIZE)` slice it, `else` send the
whole buffer as a single chunk message. -/
def splitRead (b : List Nat) : List (List Nat) :=
  if b.length > MAX_CHUNK_SIZE then chunkSlices b else [b]

/-- Chunk payloads of a whole streaming session whose `reader.read()`
calls deliver the byte lists `reads` in order. -/
def emitChunks (reads : List (List Nat)) : List (List Nat) :=
  (reads.map splitRead).flatten

/-! ## The wire messages of the `downloadFileStream` channel -/

/-- Inbound messages of the channel wire contract:
`{type:'chunk', requestId, chunk, done:false}`,
`{type:'complete', requestId, contentType}`,
`{type:'error', requestId, error}`. -/
inductive Msg where
  | chunk (requestId : String) (bytes : List Nat)
  | complete (requestId : String) (contentType : String)
  | error (requestId : String) (emsg : String)
deriving DecidableEq, Repr

/-- The `requestId` carried by a message. -/
def Msg.requestId : Msg → String
  | .chunk rid _ => rid
  | .complete rid _ => rid
  | .error rid _ => rid

/-- The fetcher's streaming loop over the reads of the response body.

`disc` models the `disconnected` flag / `AbortController`: `none` means
the requester never disconnects; `some k` means the disconnect event
fires while the `k`-th `await reader.read()` (0-indexed) is pending.
Since the context is single-threaded, the flag can only be observed at
that suspension point: the pending read is rejected by
`controller.abort()`, the `catch` block sees `disconnected = true` and
posts nothing.  The returned `Bool` records whether
`controller.abort()` was invoked while the request was in flight.

Faithful to `src/background.js` lines 140-160: reads before the
disconnect are posted in full (the posts are synchronous, no suspension
between them), the `complete` message is posted only when the body is
exhausted with the flag still unset. -/
def streamLoop (rid ct : String) : List (List Nat) → Option Nat → List Msg × Bool
  | _, some 0 => ([], true)
  | [], _ => ([Msg.complete rid ct], false)
  | r :: rs, d =>
    let rest := streamLoop rid ct rs (d.map (fun k => k - 1))
    ((splitRead r).map (Msg.chunk rid) ++ rest.1, rest.2)

/-! ## Basic lemmas about the splitting -/

theorem chunkSlicesFuel_join (fuel : Nat) :
    ∀ b : List Nat, b.length ≤ fuel → (chunkSlicesFuel fuel b).flatten = b := by
  induction fuel with
  | zero =>
    intro b hb
    have : b = [] := List.length_eq_zero.mp (Nat.le_zero.mp hb)
    subst this
    rfl
  | succ n ih =>
    intro b hb
    cases b with
    | nil => rfl
    | cons c rest =>
      have hdrop : ((c :: rest).drop MAX_CHUNK_SIZE).length ≤ n := by
        rw [List.length_drop]
        have : MAX_CHUNK_SIZE ≥ 1 := by decide
        simp only [List.length_cons] at hb ⊢
        omega
      rw [chunkSlicesFuel, List.flatten_cons, ih _ hdrop, List.take_append_drop]
      simp

theorem chunkSlices_join (b : List Nat) : (chunkSlices b).flatten = b :=
  chunkSlicesFuel_join b.length b (Nat.le_refl _)

theorem splitRead_join (b : List Nat) : (splitRead b).flatten = b := by
  unfold splitRead
  split
  · exact chunkSlices_join b
  · simp

theorem emitChunks_join (reads : List (List Nat)) :
    (emitChunks reads).flatten = reads.flatten := by
  induction reads with
  | nil => rfl
  | cons r rs ih =>
    simp only [emitChunks, List.map_cons, List.flatten_cons] at ih ⊢
    rw [List.flatten_append, splitRead_join, ih]

theorem chunkSlicesFuel_le (fuel : Nat) :
    ∀ b : List Nat, b.length ≤ fuel →
      ∀ c ∈ chunkSlicesFuel fuel b, c.length ≤ MAX_CHUNK_SIZE := by
  induction fuel with
  | zero =>
    intro b hb c hc
    have : b = [] := List.length_eq_zero.mp (Nat.le_zero.mp hb)
    subst this
    simp [chunkSlicesFuel] at hc
  | succ n ih =>
    intro b hb c hc
    cases b with
    | nil => simp [chunkSlicesFuel] at hc
    | cons x rest =>
      simp only [chunkSlicesFuel, List.mem_cons] at hc
      rcases hc with hc | hc
      · subst hc
        rw [List.length_take]
        omega
      · refine ih _ ?_ c hc
        rw [List.length_drop]
        have : MAX_CHUNK_SIZE ≥ 1 := by decide
        simp only [List.length_cons] at hb ⊢
        omega

theorem splitRead_le (b : List Nat) :
    ∀ c ∈ splitRead b, c.length ≤ MAX_CHUNK_SIZE := by
  intro c hc
  unfold splitRead at hc
  split at hc
  · exact chunkSlicesFuel_le b.length b (Nat.le_refl _) c hc
  · simp only [List.mem_singleton] at hc
    subst hc
    omega

/-! ## Requester side: the streaming client of `downloadFileViaBackground`

`src/extractor.js` lines 1560-1647.  The client opens a port, posts the
initiation message, and accumulates chunk views in `chunks` /
`totalLength`; `finalize` settles the promise at most once and
disconnects the port.  Its local mutable state is modelled by
`ClientState`; each port message / port disconnect / timer firing is one
atomic state transition (the listeners run to completion without a
suspension point). -/

/-- The resolved value of the client: `null`, or `{filename, blob}`
where the blob carries a payload and a MIME type.  The constant
`filename` argument of the source is omitted from the record (it is
threaded through unchanged). -/
abbrev ClientResult := Option (List Nat × String)

/-- Local state of one `downloadFileViaBackground` call
(one TransferSession). `result = some r` records that `resolve r` has
run. -/
structure ClientState where
  chunks : List (List Nat)
  totalLength : Nat
  contentType : String
  settled : Bool
  result : Option ClientResult
  portDisconnected : Bool
  timeoutCleared : Bool
deriving DecidableEq, Repr

/-- Initial state: `chunks = []`, `totalLength = 0`,
`contentType = 'application/octet-stream'`, `settled = false`. -/
def clientInit : ClientState :=
  { chunks := [], totalLength := 0, contentType := "application/octet-stream",
    settled := false, result := none, portDisconnected := false,
    timeoutCleared := false }

/-- `finalize` (src/extractor.js lines 1582-1587): if already settled do
nothing, else mark settled, `cleanup()` (disconnect the port) and
`resolve(result)`. -/
def finalize (r : ClientResult) (s : ClientState) : ClientState :=
  if s.settled then s
  else { s with settled := true, portDisconnected := true, result := some r }

/-- The `port.onMessage` listener (src/extractor.js lines 1591-1635),
for the session whose generated token is `sid`. -/
def stepMsg (sid : String) (s : ClientState) (m : Msg) : ClientState :=
  if m.requestId ≠ sid then s
  else
    match m with
    | .chunk _ b =>
      -- `if (view.byteLength === 0) return;` — ignore empty chunks
      if b.length = 0 then s
      else { s with chunks := s.chunks ++ [b],
                    totalLength := s.totalLength + b.length }
    | .complete _ mct =>
      -- `contentType = message.contentType || contentType;`
      let s1 := { s with timeoutCleared := true,
                         contentType := if mct = "" then s.contentType else mct }
      if s1.totalLength = 0 then finalize none s1
      else
        -- combine the buffered views in arrival order into one blob
        let combined := s1.chunks.flatten
        finalize (if combined.length > 0 then some (combined, s1.contentType)
                  else none) s1
    | .error _ _ =>
      finalize none { s with timeoutCleared := true }

/-- Events that can reach the client: a port message, the
`port.onDisconnect` listener (lines 1637-1640), or the two-minute
timeout firing (lines 1576-1580). -/
inductive ClientEvent where
  | portMsg (m : Msg)
  | portDisconnect
  | timerFire
deriving DecidableEq, Repr

/-- One client transition. -/
def stepEvent (sid : String) (s : ClientState) (e : ClientEvent) : ClientState :=
  match e with
  | .portMsg m => stepMsg sid s m
  | .portDisconnect => finalize none { s with timeoutCleared := true }
  | .timerFire => finalize none s

/-- Terminal events of a session: a `complete` or `error` message bearing
the session's requestId, the port disconnecting, or the timeout firing. -/
def isTerminal (sid : String) : ClientEvent → Bool
  | .portMsg (.chunk _ _) => false
  | .portMsg (.complete rid _) => rid == sid
  | .portMsg (.error rid _) => rid == sid
  | .portDisconnect => true
  | .timerFire => true

/-- Run the client listener over a list of inbound messages. -/
def runClient (sid : String) (msgs : List Msg) : ClientState :=
  msgs.foldl (stepMsg sid) clientInit

/-! ## Lemmas about the client -/

theorem stepMsg_chunk_matching (sid : String) (s : ClientState) (b : List Nat) :
    stepMsg sid s (Msg.chunk sid b) =
      if b.length = 0 then s
      else { s with chunks := s.chunks ++ [b],
                    totalLength := s.totalLength + b.length } := by
  simp [stepMsg, Msg.requestId]

theorem foldl_chunkMsgs (sid : String) (ps : List (List Nat)) :
    ∀ s : ClientState,
      ((ps.map (Msg.chunk sid)).foldl (stepMsg sid) s).chunks =
        s.chunks ++ ps.filter (fun b => !b.isEmpty) := by
  induction ps with
  | nil => intro s; simp
  | cons p rest ih =>
    intro s
    simp only [List.map_cons, List.foldl_cons, List.filter_cons]
    rw [stepMsg_chunk_matching]
    by_cases hp : p.length = 0
    · have : p.isEmpty = true := by
        cases p
        · rfl
        · simp at hp
      simp only [hp, if_true, this, Bool.not_true]
      rw [ih s]
      simp
    · have : p.isEmpty = false := by
        cases p
        · simp at hp
        · rfl
      simp only [hp, if_false, this, Bool.not_false]
      rw [ih]
      simp

theorem filter_nonempty_flatten (ps : List (List Nat)) :
    (ps.filter (fun b => !b.isEmpty)).flatten = ps.flatten := by
  induction ps with
  | nil => rfl
  | cons p rest ih =>
    by_cases hp : p.isEmpty
    · have hpn : p = [] := by cases p <;> simp_all
      simp [List.filter_cons, hp, hpn, ih]
    · simp [List.filter_cons, hp, ih]

/-- The chunk-message part of a completed (never-disconnected) streaming
session. -/
theorem streamLoop_none (rid ct : String) (reads : List (List Nat)) :
    streamLoop rid ct reads none =
      ((emitChunks reads).map (Msg.chunk rid) ++ [Msg.complete rid ct], false) := by
  induction reads with
  | nil => simp [streamLoop, emitChunks]
  | cons r rs ih =>
    simp only [streamLoop, Option.map_none', ih, emitChunks, List.map_cons,
      List.flatten_cons, List.map_append]
    simp

theorem stepMsg_complete_chunks (sid : String) (s : ClientState) (ct : String) :
    (stepMsg sid s (Msg.complete sid ct)).chunks = s.chunks := by
  simp only [stepMsg, Msg.requestId, ne_eq, not_true_eq_false, if_false]
  split
  · simp [finalize]
    split <;> rfl
  · simp [finalize]
    split <;> rfl

/-! ## Claim C1 — chunk round-trip -/

/-- C1: For every binary response body (delivered by `reader.read()` as
the byte lists `reads`, whose concatenation is the body), splitting it
into chunk messages by the fetcher's streaming loop and letting the
requester's listener append them in arrival order yields a chunk buffer
whose concatenation is byte-identical to the original body.  This holds
for every length, including 0 (no quantifier restriction). -/
theorem chunk_roundtrip (rid ct : String) (reads : List (List Nat)) :
    (runClient rid (streamLoop rid ct reads none).1).chunks.flatten =
      reads.flatten := by
  rw [streamLoop_none]
  simp only [runClient, List.foldl_append, List.foldl_cons, List.foldl_nil]
  rw [stepMsg_complete_chunks, foldl_chunkMsgs]
  simp only [clientInit, List.nil_append]
  rw [filter_nonempty_flatten, emitChunks_join]

/-! ## Claim C2 — chunk size ceiling -/

/-- C2: `MAX_CHUNK_SIZE` equals 65536 bytes, and every chunk message
payload emitted by the streaming mode has size at most
`MAX_CHUNK_SIZE`: an oversized read is subdivided so no single message
exceeds the ceiling. -/
theorem chunk_size_bound :
    MAX_CHUNK_SIZE = 65536 ∧
      ∀ (reads : List (List Nat)) (c : List Nat),
        c ∈ emitChunks reads → c.length ≤ MAX_CHUNK_SIZE := by
  refine ⟨by decide, ?_⟩
  intro reads c hc
  simp only [emitChunks, List.mem_flatten] at hc
  obtain ⟨l, hl, hcl⟩ := hc
  simp only [List.mem_map] at hl
  obtain ⟨b, _, rfl⟩ := hl
  exact splitRead_le b c hcl

theorem chunk_size_bound_witness :
    ([5, 6] ∈ emitChunks [[5, 6]]) ∧
      ([5, 6] : List Nat).length ≤ MAX_CHUNK_SIZE :=
  ⟨by decide, chunk_size_bound.2 [[5, 6]] [5, 6] (by decide)⟩

/-! ## Claim C3 — number of chunk messages -/

/-- C3 is false as stated: the number of chunk messages emitted for a
body of length L is not a function of L alone; it depends on how
`reader.read()` partitions the body, because the loop emits at least one
message per read.  Concretely, a 2-byte body delivered in two 1-byte
reads produces 2 chunk messages while `ceil(2 / MAX_CHUNK_SIZE) = 1`. -/
theorem chunk_count_counterexample :
    (emitChunks [[0], [0]]).length = 2 ∧
      ([[0], [0]] : List (List Nat)).flatten.length = 2 ∧
      (2 + MAX_CHUNK_SIZE - 1) / MAX_CHUNK_SIZE = 1 ∧ (2 : Nat) ≠ 1 :=
  ⟨by decide, by decide, by decide, by decide⟩

theorem ceil_div_max (n : Nat) (h : 1 ≤ n) :
    (n + MAX_CHUNK_SIZE - 1) / MAX_CHUNK_SIZE = (n - 1) / MAX_CHUNK_SIZE + 1 := by
  have h2 : n + MAX_CHUNK_SIZE - 1 = (n - 1) + MAX_CHUNK_SIZE := by omega
  rw [h2, Nat.add_div_right _ (by decide : 0 < MAX_CHUNK_SIZE)]

theorem chunkSlicesFuel_length (fuel : Nat) :
    ∀ b : List Nat, b ≠ [] → b.length ≤ fuel →
      (chunkSlicesFuel fuel b).length = (b.length - 1) / MAX_CHUNK_SIZE + 1 := by
  induction fuel with
  | zero =>
    intro b hb hl
    exact absurd (List.length_eq_zero.mp (Nat.le_zero.mp hl)) hb
  | succ n ih =>
    intro b hb hl
    cases b with
    | nil => exact absurd rfl hb
    | cons x rest =>
      rw [chunkSlicesFuel]
      case x_2 => simp
      have hdl : ((x :: rest).drop MAX_CHUNK_SIZE).length =
          (x :: rest).length - MAX_CHUNK_SIZE := List.length_drop _ _
      by_cases hd : (x :: rest).drop MAX_CHUNK_SIZE = []
      · have hle : (x :: rest).length ≤ MAX_CHUNK_SIZE := by
          have := List.length_eq_zero.mpr hd
          omega
        rw [hd]
        have h0 : chunkSlicesFuel n ([] : List Nat) = [] := by
          cases n <;> rfl
        rw [h0]
        have hzero : rest.length / MAX_CHUNK_SIZE = 0 :=
          Nat.div_eq_of_lt (by simp only [List.length_cons] at hle; omega)
        simp [hzero]
      · have hM : MAX_CHUNK_SIZE ≥ 1 := by decide
        have hgt : (x :: rest).length > MAX_CHUNK_SIZE := by
          by_contra hcon
          exact hd (List.eq_nil_of_length_eq_zero (by omega))
        have hrec := ih _ hd (by
          rw [hdl]
          simp only [List.length_cons] at hl ⊢
          omega)
        simp only [List.length_cons, hrec, hdl]
        have heq : (x :: rest).length - 1 =
            ((x :: rest).length - MAX_CHUNK_SIZE - 1) + MAX_CHUNK_SIZE := by
          simp only [List.length_cons] at hgt ⊢
          omega
        simp only [List.length_cons] at heq ⊢
        rw [heq, Nat.add_div_right _ (by decide : 0 < MAX_CHUNK_SIZE)]

theorem splitRead_length (b : List Nat) :
    (splitRead b).length =
      if b.length > MAX_CHUNK_SIZE then
        (b.length + MAX_CHUNK_SIZE - 1) / MAX_CHUNK_SIZE
      else 1 := by
  unfold splitRead
  split
  case isTrue h =>
    have hb : b ≠ [] := by
      intro e
      subst e
      simp at h
    unfold chunkSlices
    rw [chunkSlicesFuel_length b.length b hb (Nat.le_refl _),
      ← ceil_div_max b.length (by omega)]
  case isFalse h => simp [h]

/-- C3 amended: each `reader.read()` value of size r contributes
`ceil(r / MAX_CHUNK_SIZE)` chunk messages when r exceeds
`MAX_CHUNK_SIZE` and exactly one message otherwise; in particular, when
the whole body arrives as a single nonempty read of length L, the
number of chunk messages is exactly `ceil(L / MAX_CHUNK_SIZE)`. -/
theorem chunk_count_amended :
    (∀ reads : List (List Nat),
        (emitChunks reads).length =
          (reads.map (fun b =>
            if b.length > MAX_CHUNK_SIZE then
              (b.length + MAX_CHUNK_SIZE - 1) / MAX_CHUNK_SIZE
            else 1)).sum) ∧
      ∀ b : List Nat, b ≠ [] →
        (emitChunks [b]).length =
          (b.length + MAX_CHUNK_SIZE - 1) / MAX_CHUNK_SIZE := by
  constructor
  · intro reads
    induction reads with
    | nil => rfl
    | cons r rs ih =>
      simp only [emitChunks, List.map_cons, List.flatten_cons,
        List.length_append, List.sum_cons] at ih ⊢
      rw [ih, splitRead_length]
  · intro b hb
    have h1 : (emitChunks [b]).length = (splitRead b).length := by
      simp [emitChunks]
    rw [h1, splitRead_length]
    split
    case isTrue => rfl
    case isFalse h =>
      have hlen : 1 ≤ b.length := by
        cases b
        · exact absurd rfl hb
        · simp
      rw [ceil_div_max b.length hlen,
        Nat.div_eq_of_lt (by omega)]

theorem chunk_count_amended_witness :
    (([1] : List Nat) ≠ []) ∧
      (emitChunks [[1]]).length =
        (([1] : List Nat).length + MAX_CHUNK_SIZE - 1) / MAX_CHUNK_SIZE :=
  ⟨by decide, chunk_count_amended.2 [1] (by decide)⟩

/-! ## Claim C5 — cancellation stops production and aborts the request -/

theorem streamLoop_disc (rid ct : String) :
    ∀ (reads : List (List Nat)) (k : Nat), 1 ≤ k → k ≤ reads.length →
      streamLoop rid ct reads (some k) =
        ((emitChunks (reads.take k)).map (Msg.chunk rid), true) := by
  intro reads
  induction reads with
  | nil =>
    intro k h1 h2
    simp at h2
    omega
  | cons r rs ih =>
    intro k h1 h2
    match k, h1 with
    | k' + 1, _ =>
      cases k' with
      | zero =>
        simp [streamLoop, emitChunks]
      | succ k'' =>
        have h2' : k'' + 1 ≤ rs.length := by
          simp only [List.length_cons] at h2
          omega
        simp only [streamLoop, Option.map_some']
        rw [show k'' + 1 + 1 - 1 = k'' + 1 from rfl,
          ih (k'' + 1) (by omega) h2']
        simp [emitChunks]

/-- C5: if the requester disconnects while the (k+1)-st read is pending
(so after receiving the chunks of the first k ≥ 1 reads — in particular
after the first chunk), the fetcher's messages are exactly the chunk
messages of those first k reads: nothing further is emitted — every
message is a chunk of pre-disconnect data, so no `complete` (or `error`)
message for the requestId ever appears — and the in-flight request is
aborted (`controller.abort()` runs, not merely a stop of relaying). -/
theorem cancellation_stops_production (rid ct : String)
    (reads : List (List Nat)) (k : Nat) (h1 : 1 ≤ k)
    (h2 : k ≤ reads.length) :
    streamLoop rid ct reads (some k) =
        ((emitChunks (reads.take k)).map (Msg.chunk rid), true) ∧
      ∀ m ∈ (streamLoop rid ct reads (some k)).1, ∃ b, m = Msg.chunk rid b := by
  have h := streamLoop_disc rid ct reads k h1 h2
  refine ⟨h, ?_⟩
  intro m hm
  rw [h] at hm
  simp only [List.mem_map] at hm
  obtain ⟨b, _, rfl⟩ := hm
  exact ⟨b, rfl⟩

theorem cancellation_stops_production_witness :
    streamLoop "r1" "text/plain" [[7], [8]] (some 1) =
        ((emitChunks ([[7], [8]].take 1)).map (Msg.chunk "r1"), true) ∧
      ∀ m ∈ (streamLoop "r1" "text/plain" [[7], [8]] (some 1)).1,
        ∃ b, m = Msg.chunk "r1" b :=
  cancellation_stops_production "r1" "text/plain" [[7], [8]] 1
    (by decide) (by decide)

/-! ## Claim C6 — requestId isolation -/

/-- C6: an inbound message whose `requestId` differs from the active
session's token leaves the client state entirely unchanged — chunk
buffer, accumulated length, and result included. -/
theorem requestId_isolation (sid : String) (s : ClientState) (m : Msg)
    (h : m.requestId ≠ sid) : stepMsg sid s m = s := by
  simp [stepMsg, h]

theorem requestId_isolation_witness :
    (Msg.chunk "other-req" [1, 2]).requestId ≠ "sess-1" ∧
      stepMsg "sess-1" clientInit (Msg.chunk "other-req" [1, 2]) = clientInit :=
  ⟨by decide, requestId_isolation "sess-1" clientInit
    (Msg.chunk "other-req" [1, 2]) (by decide)⟩

/-! ## The `downloadFileStream` handler of the fetcher (claim C4)

`src/background.js` lines 108-167: fetch with `credentials:'include'`
first; if the response is not ok and is a 403 or an opaque (CORS-blocked)
response, retry once without credentials; throw (hence post an `error`
message) if the final response is still not ok or has no readable body;
otherwise run the streaming loop and post `complete`. -/

/-- `response.type` as far as the code inspects it: `'opaque'` or
anything else (ordinary CORS-visible responses). -/
inductive RType where
  | basic
  | opq
deriving DecidableEq, Repr

/-- A response as observed by the streaming handler.  `reads` is the
sequence of byte lists the body's reader will deliver; `hasBody` is
whether `response.body?.getReader()` is available. -/
structure StreamResponse where
  ok : Bool
  status : Nat
  statusText : String
  rtype : RType
  contentType : String
  hasBody : Bool
  reads : List (List Nat)
deriving DecidableEq, Repr

/-- Outcome of one `fetch` call: a response, or a thrown network error. -/
inductive StreamFetchOut where
  | got (r : StreamResponse)
  | threw (e : String)
deriving DecidableEq, Repr

/-- The deterministic network environment of one streaming session:
what `fetch(url, {credentials:'include', …})` and the credential-less
retry `fetch(url, {mode:'cors', …})` would produce. -/
structure StreamNet where
  fetchCred : StreamFetchOut
  fetchNoCred : StreamFetchOut
deriving DecidableEq, Repr

/-- The fetch attempts the handler can make. -/
inductive Attempt where
  | withCreds
  | noCreds
deriving DecidableEq, Repr

/-- The retry guard:
`!response.ok && (response.status === 403 || response.type === 'opaque')`. -/
def shouldRetryNoCred (r : StreamResponse) : Bool :=
  !r.ok && (r.status == 403 || r.rtype == RType.opq)

/-- `response.headers.get('content-type') || 'application/octet-stream'`. -/
def streamContentType (r : StreamResponse) : String :=
  if r.contentType = "" then "application/octet-stream" else r.contentType

/-- `error.message || 'Download failed'`. -/
def errText (e : String) : String :=
  if e = "" then "Download failed" else e

/-- What the handler does once it has settled on a final response:
throw (→ `error` message) on not-ok or missing body, else stream. -/
def finishResponse (rid : String) (r : StreamResponse) : List Msg × Bool :=
  if !r.ok then
    ([Msg.error rid ("HTTP " ++ toString r.status ++ ": " ++ r.statusText)],
      false)
  else if !r.hasBody then
    ([Msg.error rid "Readable stream not available for download"], false)
  else
    streamLoop rid (streamContentType r) r.reads none

/-- The whole `downloadFileStream` message handler for one request, in
the run where the requester never disconnects.  Returns the posted
messages, the aborted flag, and the trace of fetch attempts made. -/
def downloadFileStream (net : StreamNet) (rid : String) :
    (List Msg × Bool) × List Attempt :=
  match net.fetchCred with
  | .threw e => (([Msg.error rid (errText e)], false), [Attempt.withCreds])
  | .got r1 =>
    if shouldRetryNoCred r1 then
      match net.fetchNoCred with
      | .threw e =>
        (([Msg.error rid (errText e)], false),
          [Attempt.withCreds, Attempt.noCreds])
      | .got r2 => (finishResponse rid r2, [Attempt.withCreds, Attempt.noCreds])
    else (finishResponse rid r1, [Attempt.withCreds])

/-- The response the handler ends up inspecting after the (possible)
credential retry, when no fetch threw. -/
def finalStreamResponse (net : StreamNet) : Option StreamResponse :=
  match net.fetchCred with
  | .threw _ => none
  | .got r1 =>
    if shouldRetryNoCred r1 then
      match net.fetchNoCred with
      | .threw _ => none
      | .got r2 => some r2
    else some r1

/-- C4: the streaming handler fetches with ambient credentials first and
performs exactly one retry without credentials iff the first response is
not ok and is a 403 or an opaque response; and whenever the final
response is not ok, the session's messages are exactly one `error`
message for the requestId (the session terminates there). -/
theorem streaming_credential_retry (net : StreamNet) (rid : String) :
    ((downloadFileStream net rid).2 =
        match net.fetchCred with
        | .threw _ => [Attempt.withCreds]
        | .got r1 =>
          if shouldRetryNoCred r1 then [Attempt.withCreds, Attempt.noCreds]
          else [Attempt.withCreds]) ∧
      ∀ r, finalStreamResponse net = some r → r.ok = false →
        (downloadFileStream net rid).1 =
          ([Msg.error rid ("HTTP " ++ toString r.status ++ ": " ++ r.statusText)],
            false) := by
  obtain ⟨fc, fn⟩ := net
  cases fc with
  | threw e =>
    refine ⟨rfl, ?_⟩
    intro r hr hok
    exact absurd hr (by simp [finalStreamResponse])
  | got r1 =>
    by_cases h : shouldRetryNoCred r1
    · cases fn with
      | threw e =>
        refine ⟨by simp [downloadFileStream, h], ?_⟩
        intro r hr hok
        exact absurd hr (by simp [finalStreamResponse, h])
      | got r2 =>
        refine ⟨by simp [downloadFileStream, h], ?_⟩
        intro r hr hok
        simp [finalStreamResponse, h] at hr
        subst hr
        simp [downloadFileStream, h, finishResponse, hok]
    · refine ⟨by simp [downloadFileStream, h], ?_⟩
      intro r hr hok
      simp [finalStreamResponse, h] at hr
      subst hr
      simp [downloadFileStream, h, finishResponse, hok]

theorem streaming_credential_retry_witness :
    ((downloadFileStream
        { fetchCred := StreamFetchOut.got
            { ok := false, status := 403, statusText := "Forbidden",
              rtype := RType.basic, contentType := "", hasBody := false,
              reads := [] },
          fetchNoCred := StreamFetchOut.got
            { ok := false, status := 500, statusText := "Server Error",
              rtype := RType.basic, contentType := "", hasBody := false,
              reads := [] } } "r9").2 =
        [Attempt.withCreds, Attempt.noCreds]) ∧
      (downloadFileStream
        { fetchCred := StreamFetchOut.got
            { ok := false, status := 403, statusText := "Forbidden",
              rtype := RType.basic, contentType := "", hasBody := false,
              reads := [] },
          fetchNoCred := StreamFetchOut.got
            { ok := false, status := 500, statusText := "Server Error",
              rtype := RType.basic, contentType := "", hasBody := false,
              reads := [] } } "r9").1 =
        ([Msg.error "r9" "HTTP 500: Server Error"], false) := by
  constructor
  · have h := (streaming_credential_retry
      { fetchCred := StreamFetchOut.got
          { ok := false, status := 403, statusText := "Forbidden",
            rtype := RType.basic, contentType := "", hasBody := false,
            reads := [] },
        fetchNoCred := StreamFetchOut.got
          { ok := false, status := 500, statusText := "Server Error",
            rtype := RType.basic, contentType := "", hasBody := false,
            reads := [] } } "r9").1
    rw [h]
    decide
  · have h := (streaming_credential_retry
      { fetchCred := StreamFetchOut.got
          { ok := false, status := 403, statusText := "Forbidden",
            rtype := RType.basic, contentType := "", hasBody := false,
            reads := [] },
        fetchNoCred := StreamFetchOut.got
          { ok := false, status := 500, statusText := "Server Error",
            rtype := RType.basic, contentType := "", hasBody := false,
            reads := [] } } "r9").2
      { ok := false, status := 500, statusText := "Server Error",
        rtype := RType.basic, contentType := "", hasBody := false,
        reads := [] } (by decide) rfl
    rw [h]; rfl

/-! ## Claim C10 — the client settles exactly once -/

/-- C10: the streaming client settles its result exactly once per
session.  (a) Once settled, any further event — terminal or not — leaves
the resolved value and the settled flag unchanged (the `settled` guard in
`finalize`).  (b) While unsettled, every terminal event (a `complete` or
`error` message bearing the session's requestId, the port disconnecting,
or the two-minute timeout firing) settles the session with a resolved
value and disconnects the channel. -/
theorem client_settles_once (sid : String) (s : ClientState) (e : ClientEvent) :
    (s.settled = true →
        (stepEvent sid s e).settled = true ∧
          (stepEvent sid s e).result = s.result ∧
          (stepEvent sid s e).portDisconnected = s.portDisconnected) ∧
      (s.settled = false → isTerminal sid e = true →
        (stepEvent sid s e).settled = true ∧
          ((stepEvent sid s e).result).isSome = true ∧
          (stepEvent sid s e).portDisconnected = true) := by
  constructor
  · intro hs
    cases e with
    | portMsg m =>
      cases m with
      | chunk rid b =>
        by_cases hrid : (Msg.chunk rid b).requestId ≠ sid
        · simp [stepEvent, stepMsg, hrid, hs]
        · simp only [stepEvent, stepMsg, hrid, if_false]
          by_cases hb : b.length = 0 <;> simp [hb, hs]
      | complete rid ct =>
        by_cases hrid : (Msg.complete rid ct).requestId ≠ sid
        · simp [stepEvent, stepMsg, hrid, hs]
        · simp only [stepEvent, stepMsg, hrid, if_false]
          by_cases ht : s.totalLength = 0 <;> simp [ht, finalize, hs]
      | error rid msg =>
        by_cases hrid : (Msg.error rid msg).requestId ≠ sid
        · simp [stepEvent, stepMsg, hrid, hs]
        · simp [stepEvent, stepMsg, hrid, finalize, hs]
    | portDisconnect => simp [stepEvent, finalize, hs]
    | timerFire => simp [stepEvent, finalize, hs]
  · intro hs hterm
    cases e with
    | portMsg m =>
      cases m with
      | chunk rid b => simp [isTerminal] at hterm
      | complete rid ct =>
        have hrid : rid = sid := by simpa [isTerminal] using hterm
        subst hrid
        simp only [stepEvent, stepMsg, Msg.requestId, ne_eq,
          not_true_eq_false, if_false]
        by_cases ht : s.totalLength = 0 <;> simp [ht, finalize, hs]
      | error rid msg =>
        have hrid : rid = sid := by simpa [isTerminal] using hterm
        subst hrid
        simp [stepEvent, stepMsg, Msg.requestId, finalize, hs]
    | portDisconnect => simp [stepEvent, finalize, hs]
    | timerFire => simp [stepEvent, finalize, hs]

theorem client_settles_once_witness :
    (clientInit.settled = false ∧ isTerminal "s7" ClientEvent.portDisconnect = true) ∧
      (stepEvent "s7" clientInit ClientEvent.portDisconnect).settled = true ∧
        ((stepEvent "s7" clientInit ClientEvent.portDisconnect).result).isSome = true ∧
        (stepEvent "s7" clientInit ClientEvent.portDisconnect).portDisconnected = true :=
  ⟨⟨rfl, rfl⟩,
    (client_settles_once "s7" clientInit ClientEvent.portDisconnect).2 rfl rfl⟩

/-! ## The strategy cascade `downloadFile` (claims C7, C8)

`src/extractor.js` lines 1313-1557.  JavaScript strings are `List Char`
(`JStr`), and the string predicates the code applies to URLs
(`startsWith`, `includes`) are defined below as structural functions.
The network is a deterministic environment `Net`: one field per `fetch`
/ XHR / background call site, holding what that call would produce. -/

/-- A JavaScript string: a sequence of characters. -/
abbrev JStr := List Char

/-- `pat` is a leading segment of the second argument. -/
def leadingEq : JStr → JStr → Bool
  | [], _ => true
  | _ :: _, [] => false
  | c :: cs, d :: ds => c == d && leadingEq cs ds

/-- JS `String.prototype.startsWith`. -/
def jsStartsWith (s pat : JStr) : Bool := leadingEq pat s

/-- Scan for the pattern at every suffix. -/
def includesGo (pat : JStr) : JStr → Bool
  | [] => leadingEq pat []
  | s@(_ :: rest) => leadingEq pat s || includesGo pat rest

/-- JS `String.prototype.includes` (substring containment). -/
def jsIncludes (s pat : JStr) : Bool := includesGo pat s

/-- JS truthiness of a nullable string: non-null and non-empty. -/
def jsTruthy (s : Option JStr) : Bool :=
  match s with
  | none => false
  | some l => !l.isEmpty

/-- A buffered response as observed by the cascade's fetch paths. -/
structure Response where
  ok : Bool
  status : Nat
  rtype : RType
  body : List Nat
deriving DecidableEq, Repr

/-- Outcome of a cascade `fetch` call: response, or thrown. -/
inductive FetchOut where
  | got (r : Response)
  | threw
deriving DecidableEq, Repr

/-- Outcome of one XHR send: `onload` with a status and blob,
`onerror`, or `ontimeout`. -/
inductive XhrOut where
  | onload (status : Nat) (blob : List Nat)
  | onerror
  | ontimeout
deriving DecidableEq, Repr

/-- The deterministic network environment of one `downloadFile` call,
one field per call site:
* `blobFetch` — `fetch(blobUrl)` of the local blob handle;
* `bgBlob` — the `downloadFileAsBlob` response of the background page
  (`none` = runtime error / no response; `some (success, bytes)` where
  the base64 payload decodes to `bytes`, the empty string giving `[]`);
* `xhrCred` / `xhrNoCred` — the XHR with / without credentials;
* `fetchSO` — the same-origin fetch (with the auth header attached when
  the code decides to);
* `fetchInclude` — the include-credentials fetch, whose
  `.catch(() => null)` makes it yield `none` instead of throwing;
* `fetchRetry` — the 403-with-auth same-origin retry fetch;
* `bgStream` — the value `downloadFileViaBackground` resolves with. -/
structure Net where
  blobFetch : FetchOut
  bgBlob : Option (Bool × List Nat)
  xhrCred : XhrOut
  xhrNoCred : XhrOut
  fetchSO : FetchOut
  fetchInclude : Option Response
  fetchRetry : FetchOut
  bgStream : Option (List Nat)
deriving DecidableEq, Repr

/-- Strategy attempts, one tag per call site of the cascade. -/
inductive Strat where
  | blobHandle
  | oneShotAuth
  | xhrCredS
  | xhrNoCredS
  | fetchSameOrigin
  | fetchIncludeS
  | fetchAuthRetry
  | bgStreamS
deriving DecidableEq, Repr

/-- `downloadFileViaBackgroundBlob` (src/extractor.js lines 1448-1483):
resolves `null` on runtime error, on `success: false`, and on an empty
base64 payload (`response.blob` is falsy), else the decoded bytes. -/
def downloadFileViaBackgroundBlob (net : Net) : Option (List Nat) :=
  match net.bgBlob with
  | none => none
  | some (success, bytes) =>
    if success && !bytes.isEmpty then some bytes else none

/-- `downloadFileViaXHR` (src/extractor.js lines 1486-1557): XHR with
credentials; only on `onerror` retry once without credentials; resolve
the blob only when the status is 200 and the blob is non-empty. -/
def downloadFileViaXHR (net : Net) : Option (List Nat) × List Strat :=
  match net.xhrCred with
  | .onload st blob =>
    (if st == 200 && blob.length > 0 then some blob else none,
      [Strat.xhrCredS])
  | .ontimeout => (none, [Strat.xhrCredS])
  | .onerror =>
    match net.xhrNoCred with
    | .onload st blob =>
      (if st == 200 && blob.length > 0 then some blob else none,
        [Strat.xhrCredS, Strat.xhrNoCredS])
    | _ => (none, [Strat.xhrCredS, Strat.xhrNoCredS])

/-- Step 1 of `downloadFile` (lines 1316-1328): if a `blob:` source
handle is present, extract bytes from it; a non-ok or thrown fetch or an
empty blob falls through. -/
def tryBlobHandle (net : Net) (blobUrl : Option JStr) :
    Option (List Nat) × List Strat :=
  match blobUrl with
  | none => (none, [])
  | some bu =>
    if jsStartsWith bu "blob:".toList then
      match net.blobFetch with
      | .got r =>
        (if r.ok && r.body.length > 0 then some r.body else none,
          [Strat.blobHandle])
      | .threw => (none, [Strat.blobHandle])
    else (none, [])

/-- The tail of `downloadFile` once the inner `try` settled on a non-null
response (lines 1415-1440): on 403/opaque try XHR then the streaming
background; on any other non-ok status throw (the outer catch then runs
the streaming background); on ok read the blob, and `return null` if it
is empty. -/
def afterTryResp (net : Net) (r : Response) : Option (List Nat) × List Strat :=
  if !r.ok then
    if r.status == 403 || r.rtype == RType.opq then
      match downloadFileViaXHR net with
      | (some b, tx) => (some b, tx)
      | (none, tx) => (net.bgStream, tx ++ [Strat.bgStreamS])
    else (net.bgStream, [Strat.bgStreamS])
  else if r.body.isEmpty then (none, [])
  else (some r.body, [])

/-- The inner `try` of `downloadFile` after the response variable has
been settled by the possible include-credentials retry (lines
1378-1413): a null response or an opaque one runs the streaming
background (returning its result, null included); a 403 with API auth
retries same-origin without the header (a throw there lands in
`catch (corsError)`: XHR, then streaming background); anything else
proceeds to the post-`try` inspection `afterTryResp`. -/
def fetchPhaseAfterInc (net : Net) (useApiAuth : Bool)
    (apiAuthHeader : Option JStr) : Option Response →
      Option (List Nat) × List Strat
  | none => (net.bgStream, [Strat.bgStreamS])
  | some r2 =>
    if r2.rtype == RType.opq then (net.bgStream, [Strat.bgStreamS])
    else if !r2.ok && r2.status == 403 && useApiAuth &&
        jsTruthy apiAuthHeader then
      match net.fetchRetry with
      | .threw =>
        (match downloadFileViaXHR net with
         | (some b, tx) => (some b, Strat.fetchAuthRetry :: tx)
         | (none, tx) =>
           (net.bgStream, Strat.fetchAuthRetry :: (tx ++ [Strat.bgStreamS])))
      | .got r3 =>
        let step := afterTryResp net r3
        (step.1, Strat.fetchAuthRetry :: step.2)
    else afterTryResp net r2

/-- The inner `try` of `downloadFile` (lines 1358-1413): same-origin
fetch (a throw lands in `catch (corsError)`: XHR then streaming
background); on a non-ok response, replace the response by the
include-credentials fetch (whose `.catch` yields null instead of
throwing); then continue with `fetchPhaseAfterInc`. -/
def fetchPhase (net : Net) (useApiAuth : Bool) (apiAuthHeader : Option JStr) :
    Option (List Nat) × List Strat :=
  match net.fetchSO with
  | .threw =>
    (match downloadFileViaXHR net with
     | (some b, tx) => (some b, Strat.fetchSameOrigin :: tx)
     | (none, tx) =>
       (net.bgStream, Strat.fetchSameOrigin :: (tx ++ [Strat.bgStreamS])))
  | .got r1 =>
    if !r1.ok then
      let step := fetchPhaseAfterInc net useApiAuth apiAuthHeader
        net.fetchInclude
      (step.1, Strat.fetchSameOrigin :: Strat.fetchIncludeS :: step.2)
    else
      let step := fetchPhaseAfterInc net useApiAuth apiAuthHeader (some r1)
      (step.1, Strat.fetchSameOrigin :: step.2)

/-- Steps 4-7 of `downloadFile`: for attachment-style URLs try XHR
before any fetch (lines 1343-1350), then run the fetch phase. -/
def xhrFetchPart (net : Net) (url : JStr) (useApiAuth : Bool)
    (apiAuthHeader : Option JStr) : Option (List Nat) × List Strat :=
  let xhrStep : Option (List Nat) × List Strat :=
    if jsIncludes url "/secure/attachment/".toList ||
        jsIncludes url "/attachment/".toList then
      downloadFileViaXHR net
    else (none, [])
  match xhrStep with
  | (some b, t3) => (some b, t3)
  | (none, t3) =>
    let step := fetchPhase net useApiAuth apiAuthHeader
    (step.1, t3 ++ step.2)

/-- The strategy cascade `downloadFile` (src/extractor.js lines
1313-1445) over the environment `net`.  Returns the payload (`none`
models the JS `null` / skipped resource) and the ordered trace of
strategy attempts. -/
def downloadFile (net : Net) (url : JStr) (blobUrl : Option JStr)
    (useApiAuth : Bool) (apiAuthHeader : Option JStr) :
    Option (List Nat) × List Strat :=
  match tryBlobHandle net blobUrl with
  | (some b, t1) => (some b, t1)
  | (none, t1) =>
    if jsStartsWith url "blob:".toList || jsStartsWith url "data:".toList then
      (none, t1)
    else
      let authStep : Option (List Nat) × List Strat :=
        if useApiAuth && jsTruthy apiAuthHeader then
          (downloadFileViaBackgroundBlob net, [Strat.oneShotAuth])
        else (none, [])
      match authStep with
      | (some b, t2) => (some b, t1 ++ t2)
      | (none, t2) =>
        let step := xhrFetchPart net url useApiAuth apiAuthHeader
        (step.1, t1 ++ t2 ++ step.2)

/-! ## Cascade ordering lemmas -/

theorem downloadFileViaXHR_trace (net : Net) :
    (downloadFileViaXHR net).2 = [Strat.xhrCredS] ∨
      (downloadFileViaXHR net).2 = [Strat.xhrCredS, Strat.xhrNoCredS] := by
  unfold downloadFileViaXHR
  cases net.xhrCred with
  | onload st blob => exact Or.inl rfl
  | ontimeout => exact Or.inl rfl
  | onerror =>
    cases net.xhrNoCred with
    | onload st blob => exact Or.inr rfl
    | onerror => exact Or.inr rfl
    | ontimeout => exact Or.inr rfl

theorem afterTryResp_trace (net : Net) (r : Response) :
    List.Sublist (afterTryResp net r).2
      [Strat.xhrCredS, Strat.xhrNoCredS, Strat.bgStreamS] := by
  unfold afterTryResp
  split
  · split
    · rcases hx : downloadFileViaXHR net with ⟨res, tx⟩
      have htx : tx = [Strat.xhrCredS] ∨
          tx = [Strat.xhrCredS, Strat.xhrNoCredS] := by
        have h := downloadFileViaXHR_trace net
        rw [hx] at h
        exact h
      cases res with
      | some b =>
        show List.Sublist tx _
        rcases htx with h | h <;> rw [h] <;> decide
      | none =>
        show List.Sublist (tx ++ [Strat.bgStreamS]) _
        rcases htx with h | h <;> rw [h] <;> decide
    · show List.Sublist [Strat.bgStreamS] _
      decide
  · split
    · exact List.nil_sublist _
    · exact List.nil_sublist _

theorem fetchPhaseAfterInc_trace (net : Net) (u : Bool) (a : Option JStr)
    (ro : Option Response) :
    List.Sublist (fetchPhaseAfterInc net u a ro).2
      [Strat.fetchAuthRetry, Strat.xhrCredS, Strat.xhrNoCredS,
        Strat.bgStreamS] := by
  cases ro with
  | none =>
    show List.Sublist [Strat.bgStreamS] _
    decide
  | some r2 =>
    simp only [fetchPhaseAfterInc]
    split
    · show List.Sublist [Strat.bgStreamS] _
      decide
    · split
      · cases hfr : net.fetchRetry with
        | threw =>
          rcases hx : downloadFileViaXHR net with ⟨res, tx⟩
          have htx : tx = [Strat.xhrCredS] ∨
              tx = [Strat.xhrCredS, Strat.xhrNoCredS] := by
            have h := downloadFileViaXHR_trace net
            rw [hx] at h
            exact h
          cases res with
          | some b =>
            show List.Sublist (Strat.fetchAuthRetry :: tx) _
            rcases htx with h | h <;> rw [h] <;> decide
          | none =>
            show List.Sublist
              (Strat.fetchAuthRetry :: (tx ++ [Strat.bgStreamS])) _
            rcases htx with h | h <;> rw [h] <;> decide
        | got r3 =>
          show List.Sublist (Strat.fetchAuthRetry :: (afterTryResp net r3).2) _
          exact List.Sublist.cons₂ _ (afterTryResp_trace net r3)
      · exact (afterTryResp_trace net r2).cons _

theorem fetchPhase_trace (net : Net) (u : Bool) (a : Option JStr) :
    List.Sublist (fetchPhase net u a).2
      [Strat.fetchSameOrigin, Strat.fetchIncludeS, Strat.fetchAuthRetry,
        Strat.xhrCredS, Strat.xhrNoCredS, Strat.bgStreamS] := by
  unfold fetchPhase
  cases hso : net.fetchSO with
  | threw =>
    rcases hx : downloadFileViaXHR net with ⟨res, tx⟩
    have htx : tx = [Strat.xhrCredS] ∨
        tx = [Strat.xhrCredS, Strat.xhrNoCredS] := by
      have h := downloadFileViaXHR_trace net
      rw [hx] at h
      exact h
    cases res with
    | some b =>
      show List.Sublist (Strat.fetchSameOrigin :: tx) _
      rcases htx with h | h <;> rw [h] <;> decide
    | none =>
      show List.Sublist
        (Strat.fetchSameOrigin :: (tx ++ [Strat.bgStreamS])) _
      rcases htx with h | h <;> rw [h] <;> decide
  | got r1 =>
    show List.Sublist ((if (!r1.ok) = true then
        (let step := fetchPhaseAfterInc net u a net.fetchInclude
         (step.1, Strat.fetchSameOrigin :: Strat.fetchIncludeS :: step.2))
      else
        (let step := fetchPhaseAfterInc net u a (some r1)
         (step.1, Strat.fetchSameOrigin :: step.2))).2) _
    by_cases h1 : (!r1.ok) = true
    · rw [if_pos h1]
      exact List.Sublist.cons₂ _ (List.Sublist.cons₂ _
        (fetchPhaseAfterInc_trace net u a net.fetchInclude))
    · rw [if_neg h1]
      exact List.Sublist.cons₂ _
        ((fetchPhaseAfterInc_trace net u a (some r1)).cons _)

theorem tryBlobHandle_trace (net : Net) (bu : Option JStr) :
    List.Sublist (tryBlobHandle net bu).2 [Strat.blobHandle] := by
  cases bu with
  | none => exact List.nil_sublist _
  | some l =>
    simp only [tryBlobHandle]
    by_cases hs : jsStartsWith l "blob:".toList = true
    · rw [if_pos hs]
      cases net.blobFetch with
      | got r =>
        show List.Sublist [Strat.blobHandle] [Strat.blobHandle]
        exact List.Sublist.refl _
      | threw =>
        show List.Sublist [Strat.blobHandle] [Strat.blobHandle]
        exact List.Sublist.refl _
    · rw [if_neg hs]
      exact List.nil_sublist _

theorem xhrFetchPart_trace (net : Net) (url : JStr) (u : Bool)
    (a : Option JStr) :
    List.Sublist (xhrFetchPart net url u a).2
      ([Strat.xhrCredS, Strat.xhrNoCredS] ++
        [Strat.fetchSameOrigin, Strat.fetchIncludeS, Strat.fetchAuthRetry,
          Strat.xhrCredS, Strat.xhrNoCredS, Strat.bgStreamS]) := by
  simp only [xhrFetchPart]
  by_cases hc : (jsIncludes url "/secure/attachment/".toList ||
      jsIncludes url "/attachment/".toList) = true
  · rw [if_pos hc]
    rcases hx : downloadFileViaXHR net with ⟨res, tx⟩
    have htx : tx = [Strat.xhrCredS] ∨
        tx = [Strat.xhrCredS, Strat.xhrNoCredS] := by
      have h := downloadFileViaXHR_trace net
      rw [hx] at h
      exact h
    have htx2 : List.Sublist tx [Strat.xhrCredS, Strat.xhrNoCredS] := by
      rcases htx with h | h <;> (rw [h]; all_goals decide)
    cases res with
    | some b =>
      show List.Sublist tx _
      exact htx2.trans (List.sublist_append_left _ _)
    | none =>
      show List.Sublist (tx ++ (fetchPhase net u a).2) _
      exact htx2.append (fetchPhase_trace net u a)
  · rw [if_neg hc]
    show List.Sublist (([] : List Strat) ++ (fetchPhase net u a).2) _
    exact (List.nil_sublist _).append (fetchPhase_trace net u a)

/-- The fixed precedence of call sites in `downloadFile`, first to last
(`xhrCredS`/`xhrNoCredS` occur twice: once for the attachment-URL XHR
attempt before any fetch, once for the post-fetch fallback). -/
def stratOrder : List Strat :=
  [Strat.blobHandle, Strat.oneShotAuth, Strat.xhrCredS, Strat.xhrNoCredS,
    Strat.fetchSameOrigin, Strat.fetchIncludeS, Strat.fetchAuthRetry,
    Strat.xhrCredS, Strat.xhrNoCredS, Strat.bgStreamS]

theorem downloadFile_trace (net : Net) (url : JStr) (blobUrl : Option JStr)
    (u : Bool) (a : Option JStr) :
    List.Sublist (downloadFile net url blobUrl u a).2 stratOrder := by
  simp only [downloadFile]
  rcases h1 : tryBlobHandle net blobUrl with ⟨res1, t1⟩
  have ht1 : List.Sublist t1 [Strat.blobHandle] := by
    have h := tryBlobHandle_trace net blobUrl
    rw [h1] at h
    exact h
  cases res1 with
  | some b =>
    show List.Sublist t1 stratOrder
    exact ht1.trans (by decide)
  | none =>
    show List.Sublist ((if (jsStartsWith url "blob:".toList ||
        jsStartsWith url "data:".toList) = true then
          ((none : Option (List Nat)), t1)
        else
          match (if (u && jsTruthy a) = true then
              (downloadFileViaBackgroundBlob net, [Strat.oneShotAuth])
            else (none, [])) with
          | (some b, t2) => (some b, t1 ++ t2)
          | (none, t2) =>
            ((xhrFetchPart net url u a).1,
              t1 ++ t2 ++ (xhrFetchPart net url u a).2)).2) stratOrder
    by_cases hbd : (jsStartsWith url "blob:".toList ||
        jsStartsWith url "data:".toList) = true
    · rw [if_pos hbd]
      show List.Sublist t1 stratOrder
      exact ht1.trans (by decide)
    · rw [if_neg hbd]
      by_cases hau : (u && jsTruthy a) = true
      · rw [if_pos hau]
        cases hbb : downloadFileViaBackgroundBlob net with
        | some b2 =>
          show List.Sublist (t1 ++ [Strat.oneShotAuth]) stratOrder
          exact (ht1.append (List.Sublist.refl [Strat.oneShotAuth])).trans
            (by decide)
        | none =>
          show List.Sublist
            (t1 ++ [Strat.oneShotAuth] ++ (xhrFetchPart net url u a).2)
            stratOrder
          exact ((ht1.append (List.Sublist.refl [Strat.oneShotAuth])).append
            (xhrFetchPart_trace net url u a)).trans (by decide)
      · rw [if_neg hau]
        show List.Sublist
          (t1 ++ ([] : List Strat) ++ (xhrFetchPart net url u a).2) stratOrder
        exact ((ht1.append (List.nil_sublist [Strat.oneShotAuth])).append
          (xhrFetchPart_trace net url u a)).trans (by decide)


/-! ## Non-empty results of the cascade -/

theorem downloadFileViaXHR_ne (net : Net) :
    ∀ b, (downloadFileViaXHR net).1 = some b → b ≠ [] := by
  obtain ⟨bf, bb, xc, xn, fso, finc, fr, bgs⟩ := net
  intro b hb
  unfold downloadFileViaXHR at hb
  cases xc with
  | onload st blob =>
    simp only [] at hb
    split at hb
    · injection hb with hbe
      subst hbe
      rename_i h
      simp only [Bool.and_eq_true, decide_eq_true_eq] at h
      intro he
      rw [he] at h
      simp at h
    · simp at hb
  | ontimeout => simp at hb
  | onerror =>
    cases xn with
    | onload st blob =>
      simp only [] at hb
      split at hb
      · injection hb with hbe
        subst hbe
        rename_i h
        simp only [Bool.and_eq_true, decide_eq_true_eq] at h
        intro he
        rw [he] at h
        simp at h
      · simp at hb
    | onerror => simp at hb
    | ontimeout => simp at hb

theorem downloadFileViaBackgroundBlob_ne (net : Net) :
    ∀ b, downloadFileViaBackgroundBlob net = some b → b ≠ [] := by
  intro b hb
  unfold downloadFileViaBackgroundBlob at hb
  rcases hbb : net.bgBlob with _ | ⟨success, bytes⟩
  · rw [hbb] at hb
    simp at hb
  · rw [hbb] at hb
    simp only [] at hb
    split at hb
    · injection hb with hbe
      subst hbe
      rename_i h
      simp only [Bool.and_eq_true, Bool.not_eq_true'] at h
      intro he
      rw [he] at h
      simp at h
    · simp at hb

theorem tryBlobHandle_ne (net : Net) (bu : Option JStr) :
    ∀ b, (tryBlobHandle net bu).1 = some b → b ≠ [] := by
  intro b hb
  unfold tryBlobHandle at hb
  cases bu with
  | none => simp at hb
  | some l =>
    simp only [] at hb
    split at hb
    · rcases hbf : net.blobFetch with r | _
      · rw [hbf] at hb
        simp only [] at hb
        split at hb
        · injection hb with hbe
          subst hbe
          rename_i h
          simp only [Bool.and_eq_true, decide_eq_true_eq] at h
          intro he
          rw [he] at h
          simp at h
        · simp at hb
      · rw [hbf] at hb
        simp at hb
    · simp at hb

theorem afterTryResp_ne (net : Net) (r : Response)
    (hbg : ∀ b, net.bgStream = some b → b ≠ []) :
    ∀ b, (afterTryResp net r).1 = some b → b ≠ [] := by
  intro b hb
  unfold afterTryResp at hb
  split at hb
  · split at hb
    · rcases hx : downloadFileViaXHR net with ⟨res, tx⟩
      rw [hx] at hb
      cases res with
      | some b2 =>
        simp only [] at hb
        injection hb with hbe
        cases hbe
        exact downloadFileViaXHR_ne net b (by rw [hx])
      | none =>
        simp only [] at hb
        exact hbg b hb
    · exact hbg b hb
  · split at hb
    · simp at hb
    · injection hb with hbe
      cases hbe
      rename_i h
      intro he
      rw [he] at h
      simp at h

theorem fetchPhaseAfterInc_ne (net : Net) (u : Bool) (a : Option JStr)
    (hbg : ∀ b, net.bgStream = some b → b ≠ []) (ro : Option Response) :
    ∀ b, (fetchPhaseAfterInc net u a ro).1 = some b → b ≠ [] := by
  intro b hb
  cases ro with
  | none => exact hbg b hb
  | some r2 =>
    simp only [fetchPhaseAfterInc] at hb
    split at hb
    · exact hbg b hb
    · split at hb
      · rcases hfr : net.fetchRetry with r3 | _
        · rw [hfr] at hb
          simp only [] at hb
          exact afterTryResp_ne net r3 hbg b hb
        · rw [hfr] at hb
          simp only [] at hb
          rcases hx : downloadFileViaXHR net with ⟨res, tx⟩
          rw [hx] at hb
          cases res with
          | some b2 =>
            simp only [] at hb
            injection hb with hbe
            cases hbe
            exact downloadFileViaXHR_ne net b (by rw [hx])
          | none =>
            simp only [] at hb
            exact hbg b hb
      · exact afterTryResp_ne net r2 hbg b hb

theorem fetchPhase_ne (net : Net) (u : Bool) (a : Option JStr)
    (hbg : ∀ b, net.bgStream = some b → b ≠ []) :
    ∀ b, (fetchPhase net u a).1 = some b → b ≠ [] := by
  intro b hb
  unfold fetchPhase at hb
  rcases hfso : net.fetchSO with r1 | _
  · rw [hfso] at hb
    simp only [] at hb
    split at hb
    · simp only [] at hb
      exact fetchPhaseAfterInc_ne net u a hbg net.fetchInclude b hb
    · simp only [] at hb
      exact fetchPhaseAfterInc_ne net u a hbg (some r1) b hb
  · rw [hfso] at hb
    simp only [] at hb
    rcases hx : downloadFileViaXHR net with ⟨res, tx⟩
    rw [hx] at hb
    cases res with
    | some b2 =>
      simp only [] at hb
      injection hb with hbe
      cases hbe
      exact downloadFileViaXHR_ne net b (by rw [hx])
    | none =>
      simp only [] at hb
      exact hbg b hb

theorem xhrFetchPart_ne (net : Net) (url : JStr) (u : Bool) (a : Option JStr)
    (hbg : ∀ b, net.bgStream = some b → b ≠ []) :
    ∀ b, (xhrFetchPart net url u a).1 = some b → b ≠ [] := by
  intro b hb
  simp only [xhrFetchPart] at hb
  split at hb
  · rename_i x bp txp heq
    simp only [] at hb
    injection hb with hbe
    rw [hbe] at heq
    split at heq
    · exact downloadFileViaXHR_ne net b (by rw [heq])
    · exact absurd heq (by simp)
  · rename_i x txp heq
    simp only [] at hb
    exact fetchPhase_ne net u a hbg b hb

theorem downloadFile_ne (net : Net) (url : JStr) (blobUrl : Option JStr)
    (u : Bool) (a : Option JStr)
    (hbg : ∀ b, net.bgStream = some b → b ≠ []) :
    ∀ b, (downloadFile net url blobUrl u a).1 = some b → b ≠ [] := by
  intro b hb
  unfold downloadFile at hb
  rcases h1 : tryBlobHandle net blobUrl with ⟨res1, t1⟩
  rw [h1] at hb
  cases res1 with
  | some b1 =>
    simp only [] at hb
    injection hb with hbe
    cases hbe
    exact tryBlobHandle_ne net blobUrl b (by rw [h1])
  | none =>
    simp only [] at hb
    split at hb
    · simp at hb
    · split at hb
      · rename_i x bp t2p heq
        simp only [] at hb
        injection hb with hbe
        rw [hbe] at heq
        split at heq
        · injection heq with heq1 heq2
          exact downloadFileViaBackgroundBlob_ne net b heq1
        · injection heq with heq1 heq2
          exact absurd heq1 (by simp)
      · rename_i x t2p heq
        simp only [] at hb
        exact xhrFetchPart_ne net url u a hbg b hb

/-! ## Claim C7 — empty-payload guard -/

/-- An environment in which the same-origin fetch succeeds (ok,
non-opaque) with an empty body while the streaming background strategy
would return a non-empty payload. -/
def netEmptyOk : Net :=
  { blobFetch := FetchOut.threw, bgBlob := none,
    xhrCred := XhrOut.onerror, xhrNoCred := XhrOut.onerror,
    fetchSO := FetchOut.got
      { ok := true, status := 200, rtype := RType.basic, body := [] },
    fetchInclude := none, fetchRetry := FetchOut.threw,
    bgStream := some [1] }

/-- C7 is false as stated: a same-context fetch strategy that succeeds
with a zero-length body is treated as a failure, but the cascade does
NOT proceed to the next strategy — `downloadFile` returns `null`
immediately (src/extractor.js lines 1432-1436), even though the
streaming background strategy (`bgStream = some [1]` here) would have
yielded a non-empty payload and is never attempted. -/
theorem empty_payload_counterexample :
    downloadFile netEmptyOk "https://example.com/file".toList
        none false none = (none, [Strat.fetchSameOrigin]) ∧
      netEmptyOk.bgStream = some [1] ∧
      Strat.bgStreamS ∉ [Strat.fetchSameOrigin] :=
  ⟨by decide, rfl, by decide⟩

/-- C7 amended: every strategy treats a zero-length binary result as a
failure; after the blob-handle, API-auth one-shot, and low-level (XHR)
strategies fail this way the cascade proceeds to the next strategy, but
a same-context fetch that succeeds (ok, non-opaque) with an empty body
terminates the whole cascade with `null` without trying the remaining
strategies; the streaming client (last strategy) likewise resolves
`null` when its session completes with zero accumulated bytes. -/
theorem empty_payload_amended (net : Net) :
    (net.bgBlob = some (true, []) → downloadFileViaBackgroundBlob net = none) ∧
      (∀ st, net.xhrCred = XhrOut.onload st [] →
        (downloadFileViaXHR net).1 = none) ∧
      (∀ r, net.blobFetch = FetchOut.got r → r.body = [] →
        (tryBlobHandle net (some "blob:local".toList)).1 = none) ∧
      (∀ r, net.fetchSO = FetchOut.got r → r.ok = true →
        r.rtype = RType.basic → r.body = [] →
        fetchPhase net false none = (none, [Strat.fetchSameOrigin])) ∧
      (stepMsg "sid" clientInit (Msg.complete "sid" "text/plain")).result =
        some none := by
  refine ⟨?_, ?_, ?_, ?_, by rfl⟩
  · intro h
    unfold downloadFileViaBackgroundBlob
    rw [h]
    simp
  · intro st h
    unfold downloadFileViaXHR
    rw [h]
    simp
  · intro r h hbody
    unfold tryBlobHandle
    simp only []
    rw [if_pos (by decide : jsStartsWith "blob:local".toList
      "blob:".toList = true)]
    rw [h]
    simp [hbody]
  · intro r h hok hrt hbody
    unfold fetchPhase
    rw [h]
    simp only [hok, Bool.not_true, Bool.false_eq_true, if_false]
    simp [fetchPhaseAfterInc, afterTryResp, hok, hrt, hbody]

/-- A single environment satisfying all the hypotheses of the amended
empty-payload claim. -/
def netAllEmpty : Net :=
  { blobFetch := FetchOut.got
      { ok := true, status := 200, rtype := RType.basic, body := [] },
    bgBlob := some (true, []),
    xhrCred := XhrOut.onload 200 [], xhrNoCred := XhrOut.onerror,
    fetchSO := FetchOut.got
      { ok := true, status := 200, rtype := RType.basic, body := [] },
    fetchInclude := none, fetchRetry := FetchOut.threw, bgStream := none }

theorem empty_payload_amended_witness :
    downloadFileViaBackgroundBlob netAllEmpty = none ∧
      (downloadFileViaXHR netAllEmpty).1 = none ∧
      (tryBlobHandle netAllEmpty (some "blob:local".toList)).1 = none ∧
      fetchPhase netAllEmpty false none = (none, [Strat.fetchSameOrigin]) ∧
      (stepMsg "sid" clientInit (Msg.complete "sid" "text/plain")).result =
        some none :=
  ⟨(empty_payload_amended netAllEmpty).1 rfl,
    (empty_payload_amended netAllEmpty).2.1 200 rfl,
    (empty_payload_amended netAllEmpty).2.2.1
      { ok := true, status := 200, rtype := RType.basic, body := [] } rfl rfl,
    (empty_payload_amended netAllEmpty).2.2.2.1
      { ok := true, status := 200, rtype := RType.basic, body := [] }
      rfl rfl rfl rfl,
    (empty_payload_amended netAllEmpty).2.2.2.2⟩

/-! ## Claim C8 — strategy order of the cascade -/

/-- An environment for an attachment-path URL where the low-level XHR
succeeds at once. -/
def netAttach : Net :=
  { blobFetch := FetchOut.threw, bgBlob := none,
    xhrCred := XhrOut.onload 200 [7], xhrNoCred := XhrOut.onerror,
    fetchSO := FetchOut.got
      { ok := false, status := 404, rtype := RType.basic, body := [] },
    fetchInclude := none, fetchRetry := FetchOut.threw, bgStream := none }

/-- C8 is false as stated: for a ResourceDescriptor whose URL contains
an attachment path, the cascade's first (and here only) network attempt
is the low-level request object (XHR), although the claimed order puts
the same-context requests and the privileged one-shot fetch before it —
neither the same-context fetch nor the one-shot strategy is ever
attempted on this input. -/
theorem cascade_order_counterexample :
    downloadFile netAttach
        "https://example.com/secure/attachment/10001/f.pdf".toList
        none false none = (some [7], [Strat.xhrCredS]) ∧
      Strat.fetchSameOrigin ∉ [Strat.xhrCredS] ∧
      Strat.oneShotAuth ∉ [Strat.xhrCredS] :=
  ⟨by decide, by decide, by decide⟩

/-- C8 amended: the cascade tries its strategies in the code's fixed
call-site precedence `stratOrder` — local blob-handle extraction first
(success short-circuits); then, when API auth is enabled, the privileged
one-shot fetch carrying the auth header; then, for attachment-path URLs,
the low-level request with then without credentials; then the
same-origin ambient-credential fetch, the permissive include-credentials
fetch, and the 403-with-auth same-origin retry; then the low-level
request again (on CORS error or 403/opaque status); with the privileged
streaming fetch last.  Every run's attempt trace is an order-preserving
selection from that list, and (provided the streaming strategy never
resolves an empty payload, which the streaming client guarantees) a
successful cascade returns a non-empty payload. -/
theorem cascade_order_amended (net : Net) (url : JStr)
    (blobUrl : Option JStr) (u : Bool) (a : Option JStr) :
    List.Sublist (downloadFile net url blobUrl u a).2 stratOrder ∧
      ((∀ b, net.bgStream = some b → b ≠ []) →
        ∀ b, (downloadFile net url blobUrl u a).1 = some b → b ≠ []) :=
  ⟨downloadFile_trace net url blobUrl u a,
    fun hbg => downloadFile_ne net url blobUrl u a hbg⟩

theorem cascade_order_amended_witness :
    List.Sublist (downloadFile netAttach
        "https://example.com/secure/attachment/10001/f.pdf".toList
        none false none).2 stratOrder ∧
      ∀ b, (downloadFile netAttach
        "https://example.com/secure/attachment/10001/f.pdf".toList
        none false none).1 = some b → b ≠ [] :=
  ⟨(cascade_order_amended netAttach
      "https://example.com/secure/attachment/10001/f.pdf".toList
      none false none).1,
    (cascade_order_amended netAttach
      "https://example.com/secure/attachment/10001/f.pdf".toList
      none false none).2 (fun _ h => Option.noConfusion h)⟩

/-! ## Attachment naming (claim C9)

`src/extractor.js` lines 2013-2056, inside `extractTicket`: for each
downloaded file, derive an extension from the URL, sanitize the display
name, append the extension when missing, and uniquify against the
already-assigned archive paths by appending a numeric suffix before the
extension. -/

/-- The character class of the sanitizing regex `/[<>:"/\\|?*]/g`. -/
def reservedChar (c : Char) : Bool :=
  c == '<' || c == '>' || c == ':' || c == '"' || c == '/' ||
    c == '\\' || c == '|' || c == '?' || c == '*'

/-- JS `String.prototype.trim` (the names here only carry ASCII
whitespace). -/
def jsTrim (s : JStr) : JStr :=
  ((s.dropWhile Char.isWhitespace).reverse.dropWhile Char.isWhitespace).reverse

/-- `filename.replace(/[<>:"/\\|?*]/g, '_').trim()` (line 2024). -/
def cleanFilename (name : JStr) : JStr :=
  jsTrim (name.map (fun c => if reservedChar c then '_' else c))

/-- JS `String.prototype.split` with a non-empty string separator,
written with fuel (`s.length + 1` always suffices: every step consumes
at least one character, a separator match at least one because the
empty-separator case is diverted to the consuming branch). -/
def jsSplitFuel (sep : JStr) : Nat → JStr → JStr → List JStr
  | _, [], acc => [acc.reverse]
  | 0, s, acc => [acc.reverse ++ s]
  | fuel + 1, c :: rest, acc =>
    if leadingEq sep (c :: rest) && !sep.isEmpty then
      acc.reverse :: jsSplitFuel sep fuel ((c :: rest).drop sep.length) []
    else jsSplitFuel sep fuel rest (c :: acc)

/-- JS `s.split(sep)` for the non-empty separators used by the code. -/
def jsSplit (s sep : JStr) : List JStr := jsSplitFuel sep (s.length + 1) s []

/-- JS `String.prototype.endsWith`. -/
def jsEndsWith (s pat : JStr) : Bool := leadingEq pat.reverse s.reverse

/-- The extension derived from the URL (lines 2015-2019):
`url.split('.')`, and when there is more than one part,
`parts[parts.length-1].split('?')[0].split('#')[0]`. -/
def extFromUrl (url : JStr) : JStr :=
  let urlParts := jsSplit url ".".toList
  if urlParts.length > 1 then
    let lastPart := (urlParts.getLast?).getD []
    let beforeQuery := (jsSplit lastPart "?".toList).headD []
    (jsSplit beforeQuery "#".toList).headD []
  else []

/-- The regex test `filename.match(/\.[a-z0-9]+$/i)` (line 2029): the
name ends in a dot followed by one or more ASCII alphanumerics. -/
def hasAlnumExt (s : JStr) : Bool :=
  let rev := s.reverse
  let ds := rev.takeWhile (fun c => c.isAlpha || c.isDigit)
  !ds.isEmpty && ((rev.drop ds.length).head? == some '.')

/-- Lines 2027-2034: append the URL-derived extension unless the name
already ends with it (case-insensitively) or already has some
extension. -/
def addExt (filename ext : JStr) : JStr :=
  if !ext.isEmpty &&
      !jsEndsWith (filename.map Char.toLower)
        ('.' :: ext.map Char.toLower) then
    if hasAlnumExt filename then filename
    else filename ++ ('.' :: ext)
  else filename

/-- The collision candidate for counter value `counter` (lines
2040-2046): split on '.', and when an extension is present insert
`_counter` before it, else append `_counter`. -/
def candidateName (filename : JStr) (counter : Nat) : JStr :=
  let nameParts := jsSplit filename ".".toList
  if nameParts.length > 1 then
    (List.intercalate ".".toList nameParts.dropLast) ++
      ('_' :: (Nat.repr counter).toList) ++
      ('.' :: ((nameParts.getLast?).getD []))
  else filename ++ ('_' :: (Nat.repr counter).toList)

/-- The `while` collision loop (lines 2037-2048) over the paths already
in `attachmentPaths`, with fuel `taken.length + 1` (enough: the
candidates are pairwise distinct, so some candidate among the first
`taken.length + 1` is not taken). -/
def uniquifyGo (taken : List JStr) (dirPath filename : JStr) :
    Nat → Nat → JStr → JStr
  | 0, _, current => current
  | fuel + 1, counter, current =>
    if taken.contains (dirPath ++ current) then
      uniquifyGo taken dirPath filename fuel (counter + 1)
        (candidateName filename counter)
    else current

/-- The whole per-file naming step of `extractTicket` (lines
2013-2048). -/
def assignFilename (taken : List JStr) (dirPath : JStr)
    (name url : JStr) : JStr :=
  let ext := extFromUrl url
  let f1 := cleanFilename name
  let f2 := addExt f1 ext
  uniquifyGo taken dirPath f2 (taken.length + 1) 1 f2

/-- C9 (code bug): the claim — each assigned archive name is
collision-free and contains no path-separator or reserved characters —
is the documented intent (the code comments call the replaced characters
"invalid"), but the code violates it: the extension is derived from the
URL by taking everything after its last dot, and is appended
unsanitized.  For the extensionless URL "https://h.com/report" with
display name "report", the assigned name is "report.com/report", which
contains the path separator '/': the "extension" `com/report` spans the
host's dot and a slash. -/
theorem naming_separator_bug :
    assignFilename [] "K/raw/attachments/".toList "report".toList
        "https://h.com/report".toList = "report.com/report".toList ∧
      '/' ∈ assignFilename [] "K/raw/attachments/".toList "report".toList
        "https://h.com/report".toList :=
  ⟨by decide, by decide⟩
